import Mathlib

/-!
Verification of the dcmedit hierarchical dataset model

Shallow embedding of `src/models/Dataset_model.cpp`: the Qt tree-model over a
DCMTK dataset.  DCMTK objects (`DcmObject` / `DcmElement` / `DcmItem` /
`DcmDataset` / `DcmSequenceOfItems`) are embedded as one inductive tree; Qt
`QModelIndex` values are embedded as either the invalid index or a
(row, column, path-to-node) triple, where the path from the dataset root
stands in for the `internalPointer`.  Signals emitted by the model
(`beginInsertRows`, `dataChanged`, ...) are collected into an event trace, with
an extra trace entry marking the moment the underlying store is mutated, so
that the begin/mutate/end ordering of the structural brackets is visible.

DCMTK class hierarchy facts that the embedding encodes (they decide the
`dynamic_cast`s in the source): `DcmSequenceOfItems` derives from
`DcmElement`, while `DcmItem` and `DcmDataset` derive from `DcmObject` only;
hence `dynamic_cast<DcmElement*>` succeeds on leaf elements and on sequences,
and fails on items and datasets.
-/

namespace Dcmedit

/-- A DICOM tag key `(group,element)`, embedding DCMTK's `DcmTagKey`. -/
structure DcmTagKey where
  group : Nat
  element : Nat
deriving DecidableEq, Repr

/-- DCMTK's `DcmEVR` value-representation discriminant, restricted to the
constructors the model inspects plus a representative supply of ordinary
leaf VRs. `ident()` returns one of these. -/
inductive DcmEVR where
  | EVR_dataset
  | EVR_item
  | EVR_SQ
  | EVR_PN
  | EVR_LO
  | EVR_UI
  | EVR_DA
  | EVR_UN
  | EVR_UNKNOWN
deriving DecidableEq, Repr

/-- The underlying DCMTK node tree.  A `leafElement` is any non-sequence
`DcmElement` (tag, VR, raw value bytes); a `sequence` is a
`DcmSequenceOfItems` (itself a `DcmElement` in DCMTK, children are items);
an `item` is a `DcmItem` (children are elements, including sequences);
`dataset` is the `DcmDataset` root (also a `DcmItem` in DCMTK). -/
inductive DcmObject where
  | leafElement (tag : DcmTagKey) (vr : DcmEVR) (value : List Nat)
  | sequence (tag : DcmTagKey) (items : List DcmObject)
  | item (elements : List DcmObject)
  | dataset (elements : List DcmObject)
deriving Repr

namespace DcmObject

/-- Embeds `DcmObject::ident()`: the runtime VR discriminant. -/
def ident : DcmObject → DcmEVR
  | .leafElement _ vr _ => vr
  | .sequence _ _ => .EVR_SQ
  | .item _ => .EVR_item
  | .dataset _ => .EVR_dataset

/-- Embeds `DcmObject::isLeaf()`: true for plain `DcmElement`s, false for items,
datasets and sequences (DCMTK's `DcmSequenceOfItems` overrides `isLeaf` to
return false). -/
def isLeaf : DcmObject → Bool
  | .leafElement _ _ _ => true
  | _ => false

/-- Whether `dynamic_cast<DcmElement*>` succeeds on this node: true exactly
for leaf elements and sequences (a `DcmItem`/`DcmDataset` is not a
`DcmElement`). -/
def isElement : DcmObject → Bool
  | .leafElement _ _ _ => true
  | .sequence _ _ => true
  | _ => false

/-- Embeds `dynamic_cast<DcmElement*>(o)` as an `Option`: `some` when the node is a
`DcmElement` (leaf or sequence), `none` (null pointer) otherwise. -/
def dynCastElement (o : DcmObject) : Option DcmObject :=
  if o.isElement then some o else none

/-- Embeds `dynamic_cast<DcmSequenceOfItems*>(o)` as an `Option`. -/
def dynCastSequence : DcmObject → Option DcmObject
  | .sequence tag items => some (.sequence tag items)
  | _ => none

/-- Embeds `element->getTag().getXTag()` for a `DcmElement` (leaf or sequence). -/
def getTagKey : DcmObject → Option DcmTagKey
  | .leafElement tag _ _ => some tag
  | .sequence tag _ => some tag
  | _ => none

/-- Embeds `DcmObject::getNumberOfValues()`: for items/datasets the number of
elements (`card()`), for sequences the number of items (`card()`); for a
leaf element its value multiplicity, which the model only uses as a loop
bound on containers, never on leaves. -/
def getNumberOfValues : DcmObject → Nat
  | .leafElement _ _ _ => 1
  | .sequence _ items => items.length
  | .item elements => elements.length
  | .dataset elements => elements.length

/-- Embeds `DcmItem::getElement(i)`: the i-th element of an item/dataset, null when
out of range or when the receiver is not an item/dataset. -/
def getElement : DcmObject → Nat → Option DcmObject
  | .item elements, i => elements.get? i
  | .dataset elements, i => elements.get? i
  | _, _ => none

/-- Embeds `DcmSequenceOfItems::getItem(i)`: the i-th item of a sequence. -/
def getItem : DcmObject → Nat → Option DcmObject
  | .sequence _ items, i => items.get? i
  | _, _ => none

/-- Raw child access independent of `ident()` branching: the node's i-th
underlying child.  Used to resolve the pointer-paths stored in model
indexes. -/
def childAt : DcmObject → Nat → Option DcmObject
  | .leafElement _ _ _, _ => none
  | .sequence _ items, i => items.get? i
  | .item elements, i => elements.get? i
  | .dataset elements, i => elements.get? i

/-- Resolve a path of child positions starting at this node (the embedding
of following a stored `internalPointer`). -/
def nodeAt : DcmObject → List Nat → Option DcmObject
  | o, [] => some o
  | o, i :: rest => (o.childAt i).bind (fun c => nodeAt c rest)

/-- Replace the node at a path (the effect, on the tree value, of mutating
the pointed-to node in place). -/
def setNodeAt : DcmObject → List Nat → DcmObject → DcmObject
  | _, [], n => n
  | .sequence tag items, i :: rest, n =>
      .sequence tag (items.modify (fun c => setNodeAt c rest n) i)
  | .item elements, i :: rest, n =>
      .item (elements.modify (fun c => setNodeAt c rest n) i)
  | .dataset elements, i :: rest, n =>
      .dataset (elements.modify (fun c => setNodeAt c rest n) i)
  | .leafElement tag vr value, _ :: _, _ => .leafElement tag vr value

end DcmObject

/-- The three whitelisted tag keys. -/
def tagPatientName : DcmTagKey := ⟨0x0010, 0x0010⟩

def tagPatientID : DcmTagKey := ⟨0x0010, 0x0020⟩

def tagStudyInstanceUID : DcmTagKey := ⟨0x0020, 0x000D⟩

/-- Embeds `is_allowed_edit_tag(DcmElement*)` from `Dataset_model.cpp`: false on a
null pointer; otherwise true iff the element's tag key is exactly
(0010,0010), (0010,0020) or (0020,000D). -/
def is_allowed_edit_tag : Option DcmObject → Bool
  | none => false
  | some element =>
    match element.getTagKey with
    | none => false
    | some key =>
      if key = DcmTagKey.mk 0x0010 0x0010 then true
      else if key = DcmTagKey.mk 0x0010 0x0020 then true
      else if key = DcmTagKey.mk 0x0020 0x000D then true
      else false

/-- Qt's `QModelIndex`, embedded: the default-constructed invalid index, or a
valid index carrying `row()`, `column()` and — standing in for the
`internalPointer` to the underlying node — the path of underlying child
positions from the dataset root to that node. -/
inductive QModelIndex where
  | invalid
  | mk (row : Nat) (column : Nat) (path : List Nat)
deriving DecidableEq, Repr

namespace QModelIndex

/-- Embeds `QModelIndex::isValid()`. -/
def isValid : QModelIndex → Bool
  | .invalid => false
  | .mk _ _ _ => true

/-- Embeds `QModelIndex::row()` (0 when invalid, as in Qt the value is -1 but the
model only reads it on valid indexes). -/
def row : QModelIndex → Nat
  | .invalid => 0
  | .mk r _ _ => r

/-- Embeds `QModelIndex::column()`. -/
def column : QModelIndex → Nat
  | .invalid => 0
  | .mk _ c _ => c

/-- The stored node path; the root path for the invalid index (which the
model maps to the dataset root). -/
def path : QModelIndex → List Nat
  | .invalid => []
  | .mk _ _ p => p

end QModelIndex

/-- One open DICOM file (the `Dicom_file` collaborator): its dataset and its
unsaved-changes (dirty) flag. -/
structure Dicom_file where
  dataset : DcmObject
  unsaved_changes : Bool
deriving Repr

/-- The model state the claims are about: the `Dicom_files` collaborator's
current file, if any. -/
structure ModelState where
  current_file : Option Dicom_file
deriving Repr

/-- The observable signals the model emits, in emission order, plus one
trace entry (`removeRow` / `appendItem` / `putValue`) marking the moment
the underlying store is mutated, so bracket ordering is visible in the
trace. -/
inductive Event where
  | beginInsertRows (parent : QModelIndex) (first : Nat) (last : Nat)
  | endInsertRows
  | beginRemoveRows (parent : QModelIndex) (first : Nat) (last : Nat)
  | endRemoveRows
  | dataChanged (topLeft : QModelIndex) (bottomRight : QModelIndex)
  | datasetChanged
  | appendItem (sequencePath : List Nat)
  | removeRow (parentPath : List Nat) (row : Nat)
  | putValue (elementPath : List Nat)
deriving DecidableEq, Repr

/-- The errors the model throws (`std::runtime_error` sites in
`Dataset_model.cpp`), by message. -/
inductive ModelError where
  | invalidIndex
  | failedToGetElement
  | failedToGetSequence
  | failedToGetParent
  | unexpectedVR (vr : DcmEVR)
  | fileSizeMustBeEven
  | statusBad (text : String)
deriving DecidableEq, Repr

/-- Outcome of one mutation entry point: the state it leaves behind, the
events it emitted, and the exception it propagated, if any.  Side effects
already performed are kept even when `error` is `some` — C++ throwing does
not roll them back. -/
structure OpResult where
  state : ModelState
  events : List Event
  error : Option ModelError
deriving Repr

namespace Dataset_model

/-- Embeds `Dataset_model::get_dataset()`: the current file's dataset, null when no
file is open. -/
def get_dataset (st : ModelState) : Option DcmObject :=
  match st.current_file with
  | some file => some file.dataset
  | none => none

/-- Embeds `Dataset_model::get_object(index)`: the dataset root for the invalid
index, otherwise the node the stored pointer (path) designates. -/
def get_object (st : ModelState) (index : QModelIndex) : Option DcmObject :=
  match index with
  | .invalid => get_dataset st
  | .mk _ _ p => (get_dataset st).bind (fun root => root.nodeAt p)

/-- The child the `index`/`rowCount` loops fetch at underlying position `i`:
`getElement(i)` when the parent's `ident()` is item/dataset, `getItem(i)`
when it is SQ, null otherwise. -/
def loopChild (parentObj : DcmObject) (i : Nat) : Option DcmObject :=
  if parentObj.ident = .EVR_item ∨ parentObj.ident = .EVR_dataset then
    parentObj.getElement i
  else if parentObj.ident = .EVR_SQ then
    parentObj.getItem i
  else
    none

/-- The loop-body filter shared by `rowCount` and `index`: the child at
position `i`, cast to `DcmElement*`, is non-null and passes
`is_allowed_edit_tag`. -/
def childVisible (parentObj : DcmObject) (i : Nat) : Bool :=
  let elem := (loopChild parentObj i).bind DcmObject.dynCastElement
  elem.isSome && is_allowed_edit_tag elem

/-- Embeds `Dataset_model::rowCount(parent)`: 0 for a null object or a leaf;
otherwise the number of loop positions whose child casts to `DcmElement*`
and passes `is_allowed_edit_tag`. -/
def rowCount (st : ModelState) (parent : QModelIndex) : Nat :=
  match get_object st parent with
  | none => 0
  | some object =>
    if object.isLeaf then 0
    else ((List.range object.getNumberOfValues).filter
            (fun i => childVisible object i)).length

/-- Embeds `Dataset_model::columnCount()`: the 4 fixed columns. -/
def columnCount : Nat := 4

/-- Embeds `QAbstractItemModel::hasIndex(row, column, parent)`: row and column are
in range for the parent.  Rows/columns arrive as C++ `int`s, so the
arguments are integers and negatives are rejected here. -/
def hasIndex (st : ModelState) (row : Int) (column : Int)
    (parent : QModelIndex) : Bool :=
  0 ≤ row && row < (rowCount st parent : Int) &&
    0 ≤ column && column < (columnCount : Int)

/-- The scan inside `Dataset_model::index`: walk underlying positions in
order, count visible children (`++visibleIndex`), return the underlying
position at which the visible counter reaches `row`. -/
def indexScan (parentObj : DcmObject) (row : Nat) :
    List Nat → Nat → Option Nat
  | [], _ => none
  | i :: rest, visibleIndex =>
    if childVisible parentObj i then
      if visibleIndex = row then some i
      else indexScan parentObj row rest (visibleIndex + 1)
    else
      indexScan parentObj row rest visibleIndex

/-- Embeds `Dataset_model::index(row, column, parent)`: invalid unless `hasIndex`;
then the scan over the parent's underlying children returns
`createIndex(row, column, child)` for the `row`-th policy-visible child —
embedded as the child's path `parent.path ++ [i]`. -/
def index (st : ModelState) (row : Int) (column : Int)
    (parent : QModelIndex) : QModelIndex :=
  if ¬ hasIndex st row column parent then .invalid
  else
    match get_object st parent with
    | none => .invalid
    | some parentObj =>
      match indexScan parentObj row.toNat
          (List.range parentObj.getNumberOfValues) 0 with
      | some i => .mk row.toNat column.toNat (parent.path ++ [i])
      | none => .invalid

/-- Modelled from the spec: `Dicom_util::get_index_nr` (its definition is
not under `src/`) — "the node's position among its parent's children",
which for a path-addressed node is the last step of its path. -/
def get_index_nr (path : List Nat) : Nat :=
  path.getLast?.getD 0

/-- Embeds `Dataset_model::parent(index)`: invalid for the invalid index, for a
null object, and when the underlying parent is null or the dataset root;
otherwise `createIndex(get_index_nr(parent), 0, parent)`. -/
def parentIndex (st : ModelState) (index : QModelIndex) : QModelIndex :=
  match index with
  | .invalid => .invalid
  | .mk _ _ p =>
    match get_object st (.mk 0 0 p) with
    | none => .invalid
    | some _ =>
      let parentPath := p.dropLast
      if parentPath = [] then .invalid
      else .mk (get_index_nr parentPath) 0 parentPath

/-- Embeds `Dataset_model::mark_as_modified()`: sets the current file's
unsaved-changes flag and emits `dataset_changed`.  (The C++ dereferences
`get_current_file()` unconditionally; every entry point reaching this call
has already resolved an object through the current file, so the no-file
branch is unreachable from them and is embedded as a no-op on the state.) -/
def mark_as_modified (st : ModelState) : ModelState × List Event :=
  match st.current_file with
  | some file =>
      (⟨some { file with unsaved_changes := true }⟩, [.datasetChanged])
  | none => (st, [.datasetChanged])

/-- Replace the node at `path` of the current file's dataset (the effect of
an in-place mutation through a resolved pointer). -/
def setObjectAt (st : ModelState) (path : List Nat) (n : DcmObject) :
    ModelState :=
  match st.current_file with
  | some file =>
      ⟨some { file with dataset := file.dataset.setNodeAt path n }⟩
  | none => st

/-- Modelled from the spec: `DcmElement::putString` (external codec
boundary, §6 "set a leaf's value from text"): encodes the text into the
leaf's raw value storage. -/
def putString (element : DcmObject) (value : String) : DcmObject :=
  match element with
  | .leafElement tag vr _ => .leafElement tag vr (value.data.map Char.toNat)
  | o => o

/-- Modelled from the spec: `DcmElement::createValueFromTempFile` (external
codec boundary, §6): replaces the leaf's value storage wholesale from the
external byte source. -/
def createValueFromTempFile (element : DcmObject) (bytes : List Nat) :
    DcmObject :=
  match element with
  | .leafElement tag vr _ => .leafElement tag vr bytes
  | o => o

/-- Embeds `DcmSequenceOfItems::append`: appends the new item at the end. -/
def sqAppend : DcmObject → DcmObject → DcmObject
  | .sequence tag items, newItem => .sequence tag (items ++ [newItem])
  | o, _ => o

/-- Embeds `DcmItem::remove(row)` / `DcmSequenceOfItems::remove(row)` followed by
`delete`: erase the child at that underlying position (no-op when out of
range, as the C++ `remove` then returns null and `delete nullptr` does
nothing). -/
def removeChildAt : DcmObject → Nat → DcmObject
  | .item elements, row => .item (elements.eraseIdx row)
  | .dataset elements, row => .dataset (elements.eraseIdx row)
  | .sequence tag items, row => .sequence tag (items.eraseIdx row)
  | o, _ => o

/-- Embeds `Dataset_model::set_value(index, value)`: null element → throw; tag not
whitelisted → log and silently return; otherwise put, signal `dataChanged`,
mark modified. -/
def set_value (st : ModelState) (index : QModelIndex) (value : String) :
    OpResult :=
  match (get_object st index).bind DcmObject.dynCastElement with
  | none => ⟨st, [], some .failedToGetElement⟩
  | some element =>
    if ¬ is_allowed_edit_tag (some element) then
      ⟨st, [], none⟩
    else
      let st1 := setObjectAt st index.path (putString element value)
      let marked := mark_as_modified st1
      ⟨marked.1,
        .putValue index.path :: .dataChanged index index :: marked.2, none⟩

/-- Embeds `Dataset_model::set_value_from_file(index, file_path)`: same whitelist
gate as `set_value`; then requires an even byte count (`file_size % 2` →
throw) before the codec replaces the value; on the even path, signal
`dataChanged` and mark modified.  The external byte source is embedded as
the list of bytes the stream would deliver. -/
def set_value_from_file (st : ModelState) (index : QModelIndex)
    (file_bytes : List Nat) : OpResult :=
  match (get_object st index).bind DcmObject.dynCastElement with
  | none => ⟨st, [], some .failedToGetElement⟩
  | some element =>
    if ¬ is_allowed_edit_tag (some element) then
      ⟨st, [], none⟩
    else
      let file_size := file_bytes.length
      if file_size % 2 ≠ 0 then
        ⟨st, [], some .fileSizeMustBeEven⟩
      else
        let st1 := setObjectAt st index.path
          (createValueFromTempFile element file_bytes)
        let marked := mark_as_modified st1
        ⟨marked.1,
          .putValue index.path :: .dataChanged index index :: marked.2, none⟩

/-- Embeds `Dataset_model::add_item(index)`: not a sequence → throw; else
`beginInsertRows(index, rowCount(index), rowCount(index))`, append an empty
item, `endInsertRows`, mark modified, and only then throw if the codec's
append status was bad.  The `OFCondition` DCMTK's `append` returns is
external, so it enters as the `appendStatus` argument (`none` = good,
`some text` = bad with that message). -/
def add_item (st : ModelState) (index : QModelIndex)
    (appendStatus : Option String) : OpResult :=
  match (get_object st index).bind DcmObject.dynCastSequence with
  | none => ⟨st, [], some .failedToGetSequence⟩
  | some sq =>
    let item_pos := rowCount st index
    let st1 := setObjectAt st index.path (sqAppend sq (.item []))
    let marked := mark_as_modified st1
    ⟨marked.1,
      [.beginInsertRows index item_pos item_pos, .appendItem index.path,
        .endInsertRows] ++ marked.2,
      appendStatus.map ModelError.statusBad⟩

/-- Embeds `Dataset_model::delete_index(index)`: invalid index → throw; null
parent → throw; otherwise `beginRemoveRows(index.parent(), row, row)`,
then remove-and-free by the parent's `ident()` (item/dataset: element
remove; SQ: item remove; anything else: `bad_vr`, nothing removed), then
`endRemoveRows`, mark modified, and only then throw on `bad_vr`. -/
def delete_index (st : ModelState) (index : QModelIndex) : OpResult :=
  if ¬ index.isValid then ⟨st, [], some .invalidIndex⟩
  else
    let parentIdx := parentIndex st index
    match get_object st parentIdx with
    | none => ⟨st, [], some .failedToGetParent⟩
    | some parent =>
      let vr := parent.ident
      let row := index.row
      if vr = .EVR_item ∨ vr = .EVR_dataset then
        let st1 := setObjectAt st parentIdx.path (removeChildAt parent row)
        let marked := mark_as_modified st1
        ⟨marked.1,
          [.beginRemoveRows parentIdx row row, .removeRow parentIdx.path row,
            .endRemoveRows] ++ marked.2, none⟩
      else if vr = .EVR_SQ then
        let st1 := setObjectAt st parentIdx.path (removeChildAt parent row)
        let marked := mark_as_modified st1
        ⟨marked.1,
          [.beginRemoveRows parentIdx row row, .removeRow parentIdx.path row,
            .endRemoveRows] ++ marked.2, none⟩
      else
        let marked := mark_as_modified st
        ⟨marked.1,
          [.beginRemoveRows parentIdx row row, .endRemoveRows] ++ marked.2,
          some (.unexpectedVR vr)⟩

/-- Qt item flags, restricted to the three the model produces. -/
inductive ItemFlag where
  | ItemIsEnabled
  | ItemIsSelectable
  | ItemIsEditable
deriving DecidableEq, Repr

/-- Embeds `Dataset_model::flags(index)`: `NoItemFlags` when invalid; always
enabled and selectable; editable added only on the Value column (3) of a
`DcmElement` passing `is_allowed_edit_tag`. -/
def flags (st : ModelState) (index : QModelIndex) : List ItemFlag :=
  if ¬ index.isValid then []
  else
    let element := (get_object st index).bind DcmObject.dynCastElement
    if element.isSome && index.column = 3 && is_allowed_edit_tag element then
      [.ItemIsEnabled, .ItemIsSelectable, .ItemIsEditable]
    else
      [.ItemIsEnabled, .ItemIsSelectable]

/-- Qt item roles, restricted to the ones `setData` inspects. -/
inductive ItemRole where
  | DisplayRole
  | EditRole
  | ForegroundRole
deriving DecidableEq, Repr

/-- Outcome of `setData`: the state and events it leaves (through its
internal `set_value` call), and its boolean return. -/
structure SetDataResult where
  state : ModelState
  events : List Event
  accepted : Bool
deriving Repr

/-- Embeds `Dataset_model::setData(index, value, role)`: false on an invalid
index, a non-edit role, a non-element, or a non-whitelisted tag; otherwise
delegates to `set_value` inside try/catch, emits `dataChanged` again and
returns true, or returns false if `set_value` threw. -/
def setData (st : ModelState) (index : QModelIndex) (value : String)
    (role : ItemRole) : SetDataResult :=
  if ¬ index.isValid then ⟨st, [], false⟩
  else if role ≠ .EditRole then ⟨st, [], false⟩
  else
    match (get_object st index).bind DcmObject.dynCastElement with
    | none => ⟨st, [], false⟩
    | some element =>
      if ¬ is_allowed_edit_tag (some element) then ⟨st, [], false⟩
      else
        let r := set_value st index value
        match r.error with
        | some _ => ⟨r.state, r.events, false⟩
        | none =>
          ⟨r.state, r.events ++ [.dataChanged index index], true⟩

end Dataset_model

/-! Concrete fixtures used by the scenario theorems and the witnesses. -/

/-- PatientName leaf (0010,0010) with value "A". -/
def leafPN : DcmObject := .leafElement ⟨0x0010, 0x0010⟩ .EVR_PN [65]

/-- StudyDate leaf (0008,0020), not whitelisted. -/
def leafSD : DcmObject := .leafElement ⟨0x0008, 0x0020⟩ .EVR_DA [50, 48, 50, 52, 48, 49, 48, 49]

/-- PatientID leaf (0010,0020) with value "B". -/
def leafPID : DcmObject := .leafElement ⟨0x0010, 0x0020⟩ .EVR_LO [66]

/-- The scenario state of spec §8.6: a dataset holding, in underlying
order, (0010,0010)="A", (0008,0020)="20240101", (0010,0020)="B". -/
def st3 : ModelState := ⟨some ⟨.dataset [leafPN, leafSD, leafPID], false⟩⟩

/-- A state with no current file (null dataset). -/
def stNoFile : ModelState := ⟨none⟩

/-- A sequence-of-items (0008,1140) holding one item. -/
def seqNode1 : DcmObject := .sequence ⟨0x0008, 0x1140⟩ [.item []]

/-- A state whose dataset holds just that sequence. -/
def stSeq1 : ModelState := ⟨some ⟨.dataset [seqNode1], false⟩⟩

/-- The (handle-based) address of that sequence: underlying child 0 of the
root. -/
def seqIdx1 : QModelIndex := .mk 0 0 [0]

namespace Dataset_model

/-! Helper lemmas shared by the claim theorems. -/

/-- Counting loop positions whose fetched child satisfies a predicate is
counting the children that satisfy it. -/
theorem length_filter_range_get? (es : List DcmObject)
    (q : Option DcmObject → Bool) :
    ((List.range es.length).filter (fun i => q (es.get? i))).length =
      (es.filter (fun c => q (some c))).length := by
  induction es with
  | nil => simp
  | cons c cs ih =>
    rw [List.length_cons, List.range_succ_eq_map, List.filter_cons,
      List.filter_map]
    rw [show ((fun i => q ((c :: cs).get? i)) ∘ Nat.succ) =
          (fun i => q (cs.get? i)) from rfl]
    rw [List.filter_cons]
    simp only [List.get?_eq_getElem?] at ih ⊢
    by_cases hq : q (some c) <;> simp [hq, ih]

/-- The loop-body filter, evaluated on a present child, is the
element-cast-and-policy test on that child. -/
theorem cast_and_policy_some (c : DcmObject) :
    ((DcmObject.dynCastElement c).isSome &&
        is_allowed_edit_tag (DcmObject.dynCastElement c)) =
      (c.isElement && is_allowed_edit_tag (some c)) := by
  cases c <;> simp [DcmObject.dynCastElement, DcmObject.isElement]

/-- Shared fact behind C1/C3: on an item or dataset container, `rowCount`
is the number of children that cast to `DcmElement` and pass
`is_allowed_edit_tag`. -/
theorem filter_childVisible_length (o : DcmObject) (es : List DcmObject)
    (h : o = .dataset es ∨ o = .item es) :
    ((List.range o.getNumberOfValues).filter
        (fun i => childVisible o i)).length =
      (es.filter (fun c => c.isElement && is_allowed_edit_tag (some c))).length := by
  have hcv : (fun i => childVisible o i) =
      (fun i => ((es.get? i).bind DcmObject.dynCastElement).isSome &&
        is_allowed_edit_tag ((es.get? i).bind DcmObject.dynCastElement)) := by
    funext i
    rcases h with rfl | rfl <;>
      simp [childVisible, loopChild, DcmObject.ident, DcmObject.getElement]
  have hn : o.getNumberOfValues = es.length := by
    rcases h with rfl | rfl <;> rfl
  rw [hn, hcv, length_filter_range_get? es
    (fun o => (o.bind DcmObject.dynCastElement).isSome &&
      is_allowed_edit_tag (o.bind DcmObject.dynCastElement))]
  exact congrArg List.length
    (List.filter_congr (fun c _ => by simpa using cast_and_policy_some c))

/-- Shared fact behind C1/C3: on an item or dataset container, `rowCount`
is the number of children that cast to `DcmElement` and pass
`is_allowed_edit_tag`. -/
theorem rowCount_container (st : ModelState) (addr : QModelIndex)
    (es : List DcmObject)
    (h : get_object st addr = some (.dataset es) ∨
         get_object st addr = some (.item es)) :
    rowCount st addr =
      (es.filter (fun c => c.isElement && is_allowed_edit_tag (some c))).length := by
  rcases h with h | h <;>
  · simp only [rowCount, h, DcmObject.isLeaf, Bool.false_eq_true, if_false]
    exact filter_childVisible_length _ es (by simp)

/-- Shared fact behind C1/C9: on a sequence-of-items container whose items
are all non-`DcmElement` nodes (as `DcmSequenceOfItems::getItem` guarantees
in DCMTK), `rowCount` is 0: every item fails the `dynamic_cast` in the
counting loop. -/
theorem rowCount_sequence (st : ModelState) (addr : QModelIndex)
    (tag : DcmTagKey) (items : List DcmObject)
    (h : get_object st addr = some (.sequence tag items))
    (hwf : ∀ c ∈ items, c.isElement = false) :
    rowCount st addr = 0 := by
  simp only [rowCount, h, DcmObject.isLeaf, Bool.false_eq_true, if_false]
  have hcv : ∀ i, childVisible (.sequence tag items) i = false := by
    intro i
    simp only [childVisible, loopChild, DcmObject.ident, DcmObject.getItem]
    cases hgi : items.get? i with
    | none => simp [hgi]
    | some c =>
      have hc : c ∈ items := List.get?_mem hgi
      simp [hgi, DcmObject.dynCastElement, hwf c hc]
  simp [DcmObject.getNumberOfValues, hcv]

/-- Embeds `get_dataset` as a projection of the current file. -/
theorem get_dataset_eq (st : ModelState) :
    get_dataset st = st.current_file.map Dicom_file.dataset := by
  cases h : st.current_file <;> simp [get_dataset, h]

/-- Indexes resolve identically in states with the same dataset. -/
theorem get_object_congr (st st' : ModelState) (idx : QModelIndex)
    (h : get_dataset st = get_dataset st') :
    get_object st idx = get_object st' idx := by
  cases idx <;> simp [get_object, h]

/-- Marking modified changes no dataset. -/
theorem get_dataset_mark_as_modified (st : ModelState) :
    get_dataset (mark_as_modified st).1 = get_dataset st := by
  cases h : st.current_file <;> simp [mark_as_modified, get_dataset, h]

/-- Marking modified always emits exactly `dataset_changed`. -/
theorem mark_as_modified_events (st : ModelState) :
    (mark_as_modified st).2 = [Event.datasetChanged] := by
  cases h : st.current_file <;> simp [mark_as_modified, h]

/-- Marking modified on a state holding a file sets its dirty flag. -/
theorem mark_as_modified_dirty (st : ModelState)
    (h : st.current_file.isSome = true) :
    (mark_as_modified st).1.current_file.map Dicom_file.unsaved_changes =
      some true := by
  cases hc : st.current_file with
  | none => rw [hc] at h; cases h
  | some f => simp [mark_as_modified, hc]

/-- Replacing a node keeps a file present. -/
theorem setObjectAt_isSome (st : ModelState) (p : List Nat) (n : DcmObject) :
    (setObjectAt st p n).current_file.isSome = st.current_file.isSome := by
  cases hc : st.current_file <;> simp [setObjectAt, hc]

/-- List update at the fetched position projects through `get?`. -/
theorem get?_modify_self (f : DcmObject → DcmObject) (i : Nat)
    (l : List DcmObject) :
    (l.modify f i).get? i = (l.get? i).map f := by
  simp [List.get?_eq_getElem?, List.getElem?_modify]

/-- The in-place update at the head of a path rewrites exactly the fetched
child. -/
theorem childAt_setNodeAt_cons (root : DcmObject) (i : Nat) (rest : List Nat)
    (n : DcmObject) :
    (root.setNodeAt (i :: rest) n).childAt i =
      (root.childAt i).map (fun c => c.setNodeAt rest n) := by
  cases root <;>
    simp [DcmObject.setNodeAt, DcmObject.childAt, get?_modify_self]

/-- Updating the node at a resolvable path makes that path resolve to the
new node. -/
theorem nodeAt_setNodeAt (root : DcmObject) (p : List Nat) (n : DcmObject)
    (h : (root.nodeAt p).isSome = true) :
    (root.setNodeAt p n).nodeAt p = some n := by
  induction p generalizing root with
  | nil => cases root <;> rfl
  | cons i rest ih =>
    rw [DcmObject.nodeAt] at h ⊢
    rw [childAt_setNodeAt_cons root i rest n]
    cases hgi : root.childAt i with
    | none => rw [hgi] at h; simp at h
    | some c =>
      rw [hgi] at h
      exact ih c h

/-- Replacing the node a (resolving) index points at makes the index point
at the replacement. -/
theorem get_object_setObjectAt (st : ModelState) (idx : QModelIndex)
    (o n : DcmObject) (h : get_object st idx = some o) :
    get_object (setObjectAt st idx.path n) idx = some n := by
  cases hc : st.current_file with
  | none =>
    exfalso
    cases idx <;> simp [get_object, get_dataset, hc] at h
  | some f =>
    cases idx with
    | invalid =>
      simp [get_object, get_dataset, setObjectAt, QModelIndex.path, hc,
        DcmObject.setNodeAt]
    | mk r c p =>
      have hh : f.dataset.nodeAt p = some o := by
        simp only [get_object, get_dataset, hc, Option.some_bind'] at h
        exact h
      have hres : (f.dataset.nodeAt p).isSome = true := by
        rw [hh]; rfl
      simp only [get_object, get_dataset, setObjectAt, QModelIndex.path, hc,
        Option.some_bind']
      exact nodeAt_setNodeAt f.dataset p n hres

/-! Claim theorems. -/

/-- C2: for every leaf element, `is_allowed_edit_tag` is true iff the
element's tag is one of (0010,0010), (0010,0020), (0020,000D), regardless
of its VR or value bytes; and on a null element it returns false without
faulting. -/
theorem C2_edit_policy_iff_whitelisted_tag :
    (∀ (tag : DcmTagKey) (vr : DcmEVR) (value : List Nat),
      (is_allowed_edit_tag (some (.leafElement tag vr value)) = true ↔
        (tag = tagPatientName ∨ tag = tagPatientID ∨
          tag = tagStudyInstanceUID))) ∧
    is_allowed_edit_tag none = false := by
  refine ⟨fun tag vr value => ?_, rfl⟩
  simp only [is_allowed_edit_tag, DcmObject.getTagKey, tagPatientName,
    tagPatientID, tagStudyInstanceUID]
  split_ifs with h1 h2 h3 <;> simp [*]

/-- C2 witness: the predicate at concrete inputs, via the theorem. -/
theorem C2_witness :
    is_allowed_edit_tag
      (some (.leafElement tagStudyInstanceUID .EVR_UI [49])) = true ∧
    is_allowed_edit_tag none = false :=
  ⟨(C2_edit_policy_iff_whitelisted_tag.1 tagStudyInstanceUID .EVR_UI
      [49]).mpr (Or.inr (Or.inr rfl)),
    C2_edit_policy_iff_whitelisted_tag.2⟩

/-- C1 counterexample: a sequence-of-items holding exactly one item, at a
resolvable container address, reports `rowCount` 0, not 1 — the claim's
"row_count returns exactly M, with no policy filtering applied to items"
is false: the counting loop `dynamic_cast`s every fetched item to
`DcmElement*`, which always fails for items, so they are all filtered
out. -/
theorem C1_counterexample :
    get_object stSeq1 seqIdx1 = some seqNode1 ∧
    seqNode1.getNumberOfValues = 1 ∧
    rowCount stSeq1 seqIdx1 = 0 ∧ rowCount stSeq1 seqIdx1 ≠ 1 :=
  ⟨rfl, rfl, rfl, by decide⟩

/-- C1 (amended): for a dataset/item container, `rowCount` is the number
of children that are `DcmElement`s passing the edit policy (for well-formed
data, the whitelisted leaves); for a sequence-of-items container whose
items are (as DCMTK guarantees) non-element nodes, `rowCount` is 0 — the
element-cast-and-policy filter is applied to items too, so they never
appear. -/
theorem C1_row_count_amended :
    (∀ (st : ModelState) (addr : QModelIndex) (es : List DcmObject),
      (get_object st addr = some (.dataset es) ∨
        get_object st addr = some (.item es)) →
      rowCount st addr =
        (es.filter (fun c => c.isElement &&
          is_allowed_edit_tag (some c))).length) ∧
    (∀ (st : ModelState) (addr : QModelIndex) (tag : DcmTagKey)
        (items : List DcmObject),
      get_object st addr = some (.sequence tag items) →
      (∀ c ∈ items, c.isElement = false) →
      rowCount st addr = 0) :=
  ⟨rowCount_container, rowCount_sequence⟩

/-- C1 witness: the amended theorem applied to the §8.6 dataset (2 visible
rows) and to the one-item sequence (0 visible rows). -/
theorem C1_witness :
    rowCount st3 QModelIndex.invalid = 2 ∧ rowCount stSeq1 seqIdx1 = 0 := by
  constructor
  · have h := C1_row_count_amended.1 st3 QModelIndex.invalid
      [leafPN, leafSD, leafPID] (Or.inl rfl)
    rw [h]; rfl
  · exact C1_row_count_amended.2 stSeq1 seqIdx1 ⟨0x0008, 0x1140⟩
      [.item []] rfl
      (by intro c hc; rw [List.mem_singleton] at hc; subst hc; rfl)

/-- C3: on the §8.6 dataset — leaves (0010,0010)="A", (0008,0020),
(0010,0020)="B" in that underlying order — the root shows 2 rows;
`index(0,0)` resolves to the (0010,0010) leaf at underlying position 0 and
`index(1,0)` to the (0010,0020) leaf at underlying position 2 (dense
renumbering in original order); any out-of-range or negative row, and any
request against a null dataset, yields the invalid index rather than a
fault. -/
theorem C3_projection_scenario :
    rowCount st3 QModelIndex.invalid = 2 ∧
    index st3 0 0 QModelIndex.invalid = .mk 0 0 [0] ∧
    get_object st3 (index st3 0 0 QModelIndex.invalid) = some leafPN ∧
    index st3 1 0 QModelIndex.invalid = .mk 1 0 [2] ∧
    get_object st3 (index st3 1 0 QModelIndex.invalid) = some leafPID ∧
    (∀ row : Int, (2 ≤ row ∨ row < 0) →
      index st3 row 0 QModelIndex.invalid = .invalid) ∧
    (∀ row column : Int,
      index stNoFile row column QModelIndex.invalid = .invalid) := by
  refine ⟨rfl, rfl, rfl, rfl, rfl, ?_, ?_⟩
  · intro row hrow
    have hbad : hasIndex st3 row 0 QModelIndex.invalid = false := by
      have h2 : rowCount st3 QModelIndex.invalid = 2 := rfl
      rw [Bool.eq_false_iff]
      intro htrue
      simp only [hasIndex, h2, Bool.and_eq_true, decide_eq_true_eq] at htrue
      rcases htrue with ⟨⟨⟨hx1, hx2⟩, _⟩, _⟩
      rcases hrow with h | h <;> omega
    simp [index, hbad]
  · intro row column
    have hbad : hasIndex stNoFile row column QModelIndex.invalid = false := by
      have h0 : rowCount stNoFile QModelIndex.invalid = 0 := rfl
      rw [Bool.eq_false_iff]
      intro htrue
      simp only [hasIndex, h0, Bool.and_eq_true, decide_eq_true_eq] at htrue
      rcases htrue with ⟨⟨⟨hx1, hx2⟩, _⟩, _⟩
      omega
    simp [index, hbad]

/-- C3 witness: the universally quantified no-fault parts of the scenario
theorem at concrete rows. -/
theorem C3_witness :
    index st3 5 0 QModelIndex.invalid = QModelIndex.invalid ∧
    index stNoFile 0 0 QModelIndex.invalid = QModelIndex.invalid :=
  ⟨C3_projection_scenario.2.2.2.2.2.1 5 (Or.inl (by decide)),
    C3_projection_scenario.2.2.2.2.2.2 0 0⟩

/-- The policy accepts only non-null elements. -/
theorem is_allowed_isSome (o : Option DcmObject)
    (h : is_allowed_edit_tag o = true) : o.isSome = true := by
  cases o with
  | none => exact absurd h (by simp [is_allowed_edit_tag])
  | some _ => rfl

/-- C4: every editability-dependent path gates on the one predicate
`is_allowed_edit_tag` applied to the element the address resolves to: the
text and file/blob value-edit entry points are no-ops (state and event-free)
exactly when the predicate rejects, the text edit signals a value change
when it accepts, the cell-edit entry point accepts only when it accepts,
and the editable cell flag holds exactly on the value column of an element
it accepts. -/
theorem C4_all_paths_consult_single_predicate :
    (∀ (st : ModelState) (idx : QModelIndex) (v : String),
      is_allowed_edit_tag
        ((get_object st idx).bind DcmObject.dynCastElement) = false →
      (set_value st idx v).state = st ∧ (set_value st idx v).events = []) ∧
    (∀ (st : ModelState) (idx : QModelIndex) (bytes : List Nat),
      is_allowed_edit_tag
        ((get_object st idx).bind DcmObject.dynCastElement) = false →
      (set_value_from_file st idx bytes).state = st ∧
        (set_value_from_file st idx bytes).events = []) ∧
    (∀ (st : ModelState) (idx : QModelIndex) (v : String),
      is_allowed_edit_tag
        ((get_object st idx).bind DcmObject.dynCastElement) = true →
      Event.dataChanged idx idx ∈ (set_value st idx v).events) ∧
    (∀ (st : ModelState) (idx : QModelIndex) (v : String) (role : ItemRole),
      (setData st idx v role).accepted = true →
      is_allowed_edit_tag
        ((get_object st idx).bind DcmObject.dynCastElement) = true) ∧
    (∀ (st : ModelState) (idx : QModelIndex),
      ItemFlag.ItemIsEditable ∈ flags st idx ↔
        (idx.isValid = true ∧ idx.column = 3 ∧
          is_allowed_edit_tag
            ((get_object st idx).bind DcmObject.dynCastElement) = true)) := by
  refine ⟨?_, ?_, ?_, ?_, ?_⟩
  · intro st idx v h
    cases he : (get_object st idx).bind DcmObject.dynCastElement with
    | none => simp [set_value, he]
    | some e =>
      rw [he] at h
      simp [set_value, he, h]
  · intro st idx bytes h
    cases he : (get_object st idx).bind DcmObject.dynCastElement with
    | none => simp [set_value_from_file, he]
    | some e =>
      rw [he] at h
      simp [set_value_from_file, he, h]
  · intro st idx v h
    cases he : (get_object st idx).bind DcmObject.dynCastElement with
    | none =>
      rw [he] at h
      exact absurd h (by simp [is_allowed_edit_tag])
    | some e =>
      rw [he] at h
      simp [set_value, he, h]
  · intro st idx v role h
    cases hv : idx.isValid with
    | false => simp [setData, hv] at h
    | true =>
      by_cases hr : role = ItemRole.EditRole
      · cases he : (get_object st idx).bind DcmObject.dynCastElement with
        | none => simp [setData, hv, hr, he] at h
        | some e =>
          by_cases ha : is_allowed_edit_tag (some e) = true
          · exact ha
          · simp [setData, hv, hr, he, ha] at h
      · simp [setData, hv, hr] at h
  · intro st idx
    cases hv : idx.isValid with
    | false => simp [flags, hv]
    | true =>
      by_cases hcol : idx.column = 3
      · by_cases hall : is_allowed_edit_tag
            ((get_object st idx).bind DcmObject.dynCastElement) = true
        · have hsome := is_allowed_isSome _ hall
          simp [flags, hv, hcol, hall, hsome]
        · simp only [Bool.not_eq_true] at hall
          simp [flags, hv, hcol, hall]
      · simp [flags, hv, hcol]

/-- C4 witness: the no-op conjunct of the theorem on the non-whitelisted
StudyDate leaf of the §8.6 dataset. -/
theorem C4_witness :
    (set_value st3 (QModelIndex.mk 0 0 [1]) "X").state = st3 ∧
    (set_value st3 (QModelIndex.mk 0 0 [1]) "X").events = [] :=
  C4_all_paths_consult_single_predicate.1 st3 (QModelIndex.mk 0 0 [1]) "X"
    rfl

/-- C5: `set_value` on an address resolving to an element whose tag the
policy rejects is a complete silent no-op: the state — hence every leaf's
value bytes and the dirty flag — is unchanged, no event (in particular no
`dataChanged`) is emitted, and no error propagates to the caller. -/
theorem C5_set_value_rejected_is_silent_noop :
    ∀ (st : ModelState) (idx : QModelIndex) (v : String) (e : DcmObject),
      (get_object st idx).bind DcmObject.dynCastElement = some e →
      is_allowed_edit_tag (some e) = false →
      set_value st idx v = ⟨st, [], none⟩ := by
  intro st idx v e he ha
  simp [set_value, he, ha]

/-- C5 witness: the theorem on the StudyDate leaf of the §8.6 dataset. -/
theorem C5_witness :
    set_value st3 (QModelIndex.mk 0 0 [1]) "changed" = ⟨st3, [], none⟩ :=
  C5_set_value_rejected_is_silent_noop st3 (QModelIndex.mk 0 0 [1])
    "changed" leafSD rfl rfl

/-- C6: `set_value_from_file` on a whitelisted element with an odd-length
byte source fails with the invalid-length error and changes nothing: the
state (hence the value bytes and the dirty flag) is untouched and no event
is emitted. -/
theorem C6_blob_odd_length_invalid :
    ∀ (st : ModelState) (idx : QModelIndex) (bytes : List Nat)
      (e : DcmObject),
      (get_object st idx).bind DcmObject.dynCastElement = some e →
      is_allowed_edit_tag (some e) = true →
      bytes.length % 2 = 1 →
      set_value_from_file st idx bytes =
        ⟨st, [], some .fileSizeMustBeEven⟩ := by
  intro st idx bytes e he ha hodd
  simp [set_value_from_file, he, ha, hodd]

/-- C6 witness: the theorem on the PatientName leaf with a 3-byte
source. -/
theorem C6_witness :
    set_value_from_file st3 (QModelIndex.mk 0 0 [0]) [1, 2, 3] =
      ⟨st3, [], some .fileSizeMustBeEven⟩ :=
  C6_blob_odd_length_invalid st3 (QModelIndex.mk 0 0 [0]) [1, 2, 3]
    leafPN rfl rfl rfl

/-- C7: every `delete_index` run that reaches the bracketed removal — the
index is valid and its parent resolves (failures earlier than that throw
before any side effect) — marks the current file dirty and emits the
remove bracket, in all three parent-kind branches, including the
unexpected-VR TypeMismatch branch whose error is raised only after the
dirty marking; already-executed side effects are not rolled back. -/
theorem C7_delete_marks_dirty_even_on_internal_failure :
    ∀ (st : ModelState) (idx : QModelIndex) (parent : DcmObject),
      st.current_file.isSome = true →
      idx.isValid = true →
      get_object st (parentIndex st idx) = some parent →
      ((delete_index st idx).state.current_file.map
          Dicom_file.unsaved_changes = some true) ∧
      Event.beginRemoveRows (parentIndex st idx) idx.row idx.row ∈
        (delete_index st idx).events ∧
      Event.endRemoveRows ∈ (delete_index st idx).events := by
  intro st idx parent hf hv hp
  have hf' : ∀ p n, (setObjectAt st p n).current_file.isSome = true := by
    intro p n; rw [setObjectAt_isSome]; exact hf
  by_cases h1 : parent.ident = .EVR_item ∨ parent.ident = .EVR_dataset
  · simp only [delete_index, hv, Bool.not_true, Bool.false_eq_true,
      not_false_iff, if_true, hp, if_pos h1]
    refine ⟨mark_as_modified_dirty _ (hf' _ _), ?_, ?_⟩ <;>
      simp [mark_as_modified_events]
  · by_cases h2 : parent.ident = .EVR_SQ
    · simp only [delete_index, hv, Bool.not_true, Bool.false_eq_true,
        not_false_iff, if_true, hp, if_neg h1, if_pos h2]
      refine ⟨mark_as_modified_dirty _ (hf' _ _), ?_, ?_⟩ <;>
        simp [mark_as_modified_events]
    · simp only [delete_index, hv, Bool.not_true, Bool.false_eq_true,
        not_false_iff, if_true, hp, if_neg h1, if_neg h2]
      refine ⟨mark_as_modified_dirty _ hf, ?_, ?_⟩ <;>
        simp [mark_as_modified_events]

/-- C7 witness: deleting visible row 0 of the §8.6 dataset leaves the file
marked dirty. -/
theorem C7_witness :
    (delete_index st3 (QModelIndex.mk 0 0 [0])).state.current_file.map
      Dicom_file.unsaved_changes = some true :=
  (C7_delete_marks_dirty_even_on_internal_failure st3
    (QModelIndex.mk 0 0 [0]) (.dataset [leafPN, leafSD, leafPID])
    rfl rfl rfl).1

/-- C8: each structural operation's event trace is exactly one begin
bracket, then the underlying store mutation, then the matching end bracket
(then the dataset-changed note): begin strictly precedes the mutation, end
strictly follows it, and only one bracket pair occurs — no nesting.  In
particular deleting row 0 under a dataset/item parent emits
`begin_remove(parent,0,0)` before the element is freed and `end_remove`
after. -/
theorem C8_structural_bracket_ordering :
    (∀ (st : ModelState) (idx : QModelIndex) (parent : DcmObject),
      idx.isValid = true →
      get_object st (parentIndex st idx) = some parent →
      (parent.ident = .EVR_item ∨ parent.ident = .EVR_dataset ∨
        parent.ident = .EVR_SQ) →
      (delete_index st idx).events =
        [.beginRemoveRows (parentIndex st idx) idx.row idx.row,
          .removeRow (parentIndex st idx).path idx.row,
          .endRemoveRows, .datasetChanged]) ∧
    (∀ (st : ModelState) (idx : QModelIndex) (sq : DcmObject)
        (appendStatus : Option String),
      (get_object st idx).bind DcmObject.dynCastSequence = some sq →
      (add_item st idx appendStatus).events =
        [.beginInsertRows idx (rowCount st idx) (rowCount st idx),
          .appendItem idx.path, .endInsertRows, .datasetChanged]) := by
  constructor
  · intro st idx parent hv hp hkind
    by_cases h1 : parent.ident = .EVR_item ∨ parent.ident = .EVR_dataset
    · simp only [delete_index, hv, Bool.not_true, Bool.false_eq_true,
        not_false_iff, if_true, hp, if_pos h1]
      simp [mark_as_modified_events]
    · have h2 : parent.ident = .EVR_SQ := by tauto
      simp only [delete_index, hv, Bool.not_true, Bool.false_eq_true,
        not_false_iff, if_true, hp, if_neg h1, if_pos h2]
      simp [mark_as_modified_events]
  · intro st idx sq appendStatus hbind
    simp only [add_item, hbind]
    simp [mark_as_modified_events]

/-- C8 witness: the delete part of the theorem at the §8.6 dataset, row 0:
the parent bracket is the virtual-root (invalid) index at rows (0,0), the
free happens strictly between begin and end. -/
theorem C8_witness :
    (delete_index st3 (QModelIndex.mk 0 0 [0])).events =
      [.beginRemoveRows QModelIndex.invalid 0 0, .removeRow [] 0,
        .endRemoveRows, .datasetChanged] := by
  have h := C8_structural_bracket_ordering.1 st3 (QModelIndex.mk 0 0 [0])
    (.dataset [leafPN, leafSD, leafPID]) rfl rfl (Or.inr (Or.inl rfl))
  simpa using h

/-- C9 counterexample: with a sequence-of-items holding one item, after
`add_item` the new item's address cannot be produced — `index` under the
sequence yields the invalid sentinel — so `delete_index` on "the newly
inserted item's address" fails with the invalid-index error and removes
nothing: the sequence still holds both items afterwards, refuting the
claim's premise that the round trip of a successful insert and a
successful delete of the new item can be performed. -/
theorem C9_counterexample :
    rowCount stSeq1 seqIdx1 = 0 ∧
    index (add_item stSeq1 seqIdx1 none).state 0 0 seqIdx1 =
      QModelIndex.invalid ∧
    (delete_index (add_item stSeq1 seqIdx1 none).state
        (index (add_item stSeq1 seqIdx1 none).state 0 0 seqIdx1)).error =
      some .invalidIndex ∧
    get_object
        (delete_index (add_item stSeq1 seqIdx1 none).state
          (index (add_item stSeq1 seqIdx1 none).state 0 0 seqIdx1)).state
        seqIdx1 =
      some (.sequence ⟨0x0008, 0x1140⟩ [.item [], .item []]) :=
  ⟨rfl, rfl, rfl, rfl⟩

/-- C9 (amended): after `add_item` on a sequence-of-items address, the new
item receives no valid address — every `index` request under the sequence
returns the invalid sentinel, because items are filtered out of the
projection — and `delete_index` on that invalid address fails with the
invalid-index error changing nothing; `rowCount` of the sequence address
still equals its pre-insert value, both being 0. -/
theorem C9_round_trip_amended :
    ∀ (st : ModelState) (idx : QModelIndex) (tag : DcmTagKey)
      (items : List DcmObject) (appendStatus : Option String),
      get_object st idx = some (.sequence tag items) →
      (∀ c ∈ items, c.isElement = false) →
      (∀ row column : Int,
        index (add_item st idx appendStatus).state row column idx =
          QModelIndex.invalid) ∧
      delete_index (add_item st idx appendStatus).state QModelIndex.invalid =
        ⟨(add_item st idx appendStatus).state, [], some .invalidIndex⟩ ∧
      rowCount (add_item st idx appendStatus).state idx = rowCount st idx ∧
      rowCount st idx = 0 := by
  intro st idx tag items appendStatus hobj hwf
  have h0 : rowCount st idx = 0 := rowCount_sequence st idx tag items hobj hwf
  have hbind : (get_object st idx).bind DcmObject.dynCastSequence =
      some (.sequence tag items) := by
    rw [hobj]; rfl
  have hstate : (add_item st idx appendStatus).state =
      (mark_as_modified (setObjectAt st idx.path
        (sqAppend (.sequence tag items) (.item [])))).1 := by
    simp [add_item, hbind]
  have hobj' : get_object (add_item st idx appendStatus).state idx =
      some (.sequence tag (items ++ [.item []])) := by
    rw [hstate,
      get_object_congr _ (setObjectAt st idx.path
          (sqAppend (.sequence tag items) (.item []))) idx
        (get_dataset_mark_as_modified _)]
    exact get_object_setObjectAt st idx _ _ hobj
  have hwf' : ∀ c ∈ items ++ [DcmObject.item []], c.isElement = false := by
    intro c hc
    rcases List.mem_append.mp hc with hc | hc
    · exact hwf c hc
    · rw [List.mem_singleton] at hc; subst hc; rfl
  have hnew : rowCount (add_item st idx appendStatus).state idx = 0 :=
    rowCount_sequence _ idx tag (items ++ [.item []]) hobj' hwf'
  refine ⟨?_, ?_, hnew.trans h0.symm, h0⟩
  · intro row column
    have hbad : hasIndex (add_item st idx appendStatus).state row column
        idx = false := by
      rw [Bool.eq_false_iff]
      intro htrue
      simp only [hasIndex, hnew, Bool.and_eq_true, decide_eq_true_eq]
        at htrue
      rcases htrue with ⟨⟨⟨hx1, hx2⟩, _⟩, _⟩
      omega
    simp [index, hbad]
  · simp [delete_index, QModelIndex.isValid]

/-- C9 witness: the amended theorem on the one-item sequence fixture. -/
theorem C9_witness :
    index (add_item stSeq1 seqIdx1 none).state 0 0 seqIdx1 =
      QModelIndex.invalid ∧
    rowCount (add_item stSeq1 seqIdx1 none).state seqIdx1 =
      rowCount stSeq1 seqIdx1 := by
  have h := C9_round_trip_amended stSeq1 seqIdx1 ⟨0x0008, 0x1140⟩
    [.item []] none rfl
    (by intro c hc; rw [List.mem_singleton] at hc; subst hc; rfl)
  exact ⟨h.1 0 0, h.2.2.1⟩

/-- C10: `add_item` on a valid sequence-of-items address with a bad codec
append status still marks the file dirty and emits the full insert
bracket including `endInsertRows`; the status-bad error is raised to the
caller only after those side effects have executed. -/
theorem C10_add_item_failure_raised_after_side_effects :
    ∀ (st : ModelState) (idx : QModelIndex) (sq : DcmObject)
      (errText : String),
      st.current_file.isSome = true →
      (get_object st idx).bind DcmObject.dynCastSequence = some sq →
      (add_item st idx (some errText)).error =
        some (.statusBad errText) ∧
      ((add_item st idx (some errText)).state.current_file.map
          Dicom_file.unsaved_changes = some true) ∧
      (add_item st idx (some errText)).events =
        [.beginInsertRows idx (rowCount st idx) (rowCount st idx),
          .appendItem idx.path, .endInsertRows, .datasetChanged] := by
  intro st idx sq errText hf hbind
  simp only [add_item, hbind]
  refine ⟨rfl, ?_, ?_⟩
  · exact mark_as_modified_dirty _ (by rw [setObjectAt_isSome]; exact hf)
  · simp [mark_as_modified_events]

/-- C10 witness: the theorem on the one-item sequence fixture with a bad
append status. -/
theorem C10_witness :
    (add_item stSeq1 seqIdx1 (some "bad status")).error =
      some (.statusBad "bad status") ∧
    (add_item stSeq1 seqIdx1 (some "bad status")).state.current_file.map
      Dicom_file.unsaved_changes = some true := by
  have h := C10_add_item_failure_raised_after_side_effects stSeq1 seqIdx1
    seqNode1 "bad status" rfl rfl
  exact ⟨h.1, h.2.1⟩

end Dataset_model

end Dcmedit
